import Mathlib

/-!
Verification development for the Neurodeck synchronization core
(`src/gpt_to_anki/`): the card store (`database.py`), the external
feedback source (`anki_connect.py`) and the reconciliation service
(`anki_sync.py`), shallowly embedded in Lean.

Machine integers of the source (Python ints, SQLite INTEGER) are modelled
as `Int`; Python `None`-able values as `Option`; raised exceptions as
`Except`.  Async fan-out (`asyncio.gather`) is modelled as a deterministic
left-to-right aggregation: `gather` without `return_exceptions` returns
the results in task order when all tasks succeed and propagates a raised
exception otherwise (the model surfaces the first failing id in list
order; which of several concurrent exceptions surfaces is timing-dependent
in the source, but *that* one propagates is not).
-/

set_option autoImplicit false

namespace Neurodeck

/-! ## Data objects

`Card` from `data_objects.py` and `AnkiNoteFeedback` from
`anki_models.py`.  Pydantic field defaults are kept because
`asave_cards` dumps cards with `exclude_defaults=True`, which makes the
default values semantically relevant. -/

structure Card where
  question : String
  answer : String
  topic : String := ""
  context : String := ""
  evaluation : String := "not_evaluated"
  database_id : Option Int := none
deriving DecidableEq

structure AnkiNoteFeedback where
  database_id : Int
  anki_note_id : Int
  deck_name : String
  model_name : String
  question : String
  answer : String
  topic : String := ""
  suspended : Bool := false
  flag : Int := 0
deriving DecidableEq

/-! ## External feedback source (`anki_connect.py`)

`AnkiConnectDeck` configuration and the per-note resolution algorithm of
`_fetch_single_feedback`.  The JSON values that AnkiConnect returns are
modelled just as far as the code inspects them. -/

/-- The value found under the `"flags"` key of a `cardsInfo` entry:
`card.get("flags", 0)` yields the stored value, or the default 0 when the
key is missing; the stored value can be a JSON number, string or null. -/
inductive PyFlag where
  | missing
  | null
  | int (n : Int)
  | str (s : String)
deriving DecidableEq

/-- Rest of a Python integer-literal digit sequence: digits with single
underscores allowed between digits (`int("1_0") = 10`, `int("1__0")`
and `int("1_")` raise). -/
def undDigitsRest : List Char → Bool
  | [] => true
  | '_' :: c :: cs => c.isDigit && undDigitsRest cs
  | c :: cs => c.isDigit && undDigitsRest cs

/-- A non-empty digit sequence acceptable to Python `int`, underscores
included. -/
def pyDigitsOk : List Char → Bool
  | [] => false
  | c :: cs => c.isDigit && undDigitsRest cs

/-- Numeric value of a digit sequence once underscores are dropped. -/
def digitsVal (cs : List Char) : Nat :=
  (cs.filter (fun c => c ≠ '_')).foldl (fun acc c => acc * 10 + (c.toNat - 48)) 0

/-- Python `int(s)` on a string: strip surrounding whitespace, allow one
optional sign, then a digit sequence; anything else raises `ValueError`
(here: `none`). -/
def pyIntOfString (s : String) : Option Int :=
  match s.trim.toList with
  | '+' :: rest => if pyDigitsOk rest then some (digitsVal rest) else none
  | '-' :: rest => if pyDigitsOk rest then some (-(digitsVal rest : Int)) else none
  | cs => if pyDigitsOk cs then some (digitsVal cs) else none

/-- The flag value a card contributes:
`int(card.get("flags", 0) or 0)` guarded by `except Exception: 0`.
A missing key, `null`, `0` or `""` is falsy and coerces to 0; a numeric
string parses via Python `int`; an unparseable string raises inside the
`try` and is coerced to 0. -/
def parseFlag : PyFlag → Int
  | .missing => 0
  | .null => 0
  | .int n => n
  | .str s => if s = "" then 0 else (pyIntOfString s).getD 0

/-- One entry of a `cardsInfo` response, as far as the code reads it. -/
structure CardInfo where
  suspended : Option Bool := none
  queue : Option Int := none
  flags : PyFlag := .missing
deriving DecidableEq

/-- `card.get("suspended") or card.get("queue") == -1`: a card counts as
suspended when its `suspended` value is truthy or its queue state is -1. -/
def cardMarksSuspended (c : CardInfo) : Bool :=
  c.suspended.getD false || c.queue == some (-1)

/-- The suspended/flag aggregation loop of `_fetch_single_feedback`:
starting from `suspended = False, flag = 0`, each card may switch
`suspended` on and raises `flag` to the maximum seen. -/
def aggregateCards (cards : List CardInfo) : Bool × Int :=
  cards.foldl
    (fun acc card => (acc.1 || cardMarksSuspended card, max acc.2 (parseFlag card.flags)))
    (false, 0)

/-- A note field map: field name to the `"value"` entry of the field
object (`none` for a field object without a `"value"` key).  A name
absent from the list models a field missing from the note. -/
abbrev NoteFields := List (String × Option String)

/-- One entry of a `notesInfo` response, as far as the code reads it. -/
structure NoteInfo where
  noteId : Int
  modelName : Option String := none
  fields : NoteFields := []
deriving DecidableEq

/-- The configuration held by an `AnkiConnectDeck` instance. -/
structure DeckConfig where
  deck_name : String
  model_name : String
  id_field : String
  field_map : List (String × String)
  endpoint : String
deriving DecidableEq

/-- The default field-name mapping of `AnkiConnectDeck.__init__`. -/
def defaultFieldMap : List (String × String) :=
  [("question", "Question"), ("answer", "Answer"), ("topic", "Topic")]

/-- `AnkiConnectDeck.__init__`: `self.field_map = field_map or {...}` — a
missing (`None`) or empty mapping falls back to the default. -/
def mkAnkiConnectDeck (deck_name model_name id_field : String)
    (field_map : Option (List (String × String))) (endpoint : String) : DeckConfig :=
  { deck_name := deck_name
    model_name := model_name
    id_field := id_field
    field_map :=
      match field_map with
      | none => defaultFieldMap
      | some [] => defaultFieldMap
      | some m => m
    endpoint := endpoint }

/-- `_build_search_for_id`: restrict by deck, note type and the id field. -/
def buildSearchForId (deck : DeckConfig) (db_id : Int) : String :=
  "deck:\"" ++ deck.deck_name ++ "\" note:\"" ++ deck.model_name ++ "\" "
    ++ deck.id_field ++ ":" ++ toString db_id

/-- The inner `get_field` of `_fetch_single_feedback`: map the logical key
through `field_map` (falling back to the key itself), then read the
field's `"value"`, defaulting to the empty string at every step. -/
def get_field (field_map : List (String × String)) (fields : NoteFields)
    (key : String) : String :=
  match fields.lookup ((field_map.lookup key).getD key) with
  | none => ""
  | some none => ""
  | some (some v) => v

/-- The four AnkiConnect query actions as seen through `_post` on a
reachable endpoint, with `... or []` already applied (so a null result is
the empty list).  Per-request transport failures are modelled at the
batch level, where the code lets them escape `_fetch_single_feedback`. -/
structure AnkiRemote where
  findNotes : String → List Int
  notesInfo : List Int → List NoteInfo
  findCards : String → List Int
  cardsInfo : List Int → List CardInfo

/-- The note `_fetch_single_feedback` resolves a database id to: the
first `notesInfo` entry for the `findNotes` hits, `none` when either
query comes back empty. -/
def resolvedNote (deck : DeckConfig) (remote : AnkiRemote) (db_id : Int) :
    Option NoteInfo :=
  let query := buildSearchForId deck db_id
  let note_ids := remote.findNotes query
  if note_ids.isEmpty then none
  else (remote.notesInfo note_ids).head?

/-- The cards inspected for the suspended/flag state: `findCards` on the
same query, `cardsInfo` on the hits, skipped entirely when `findCards`
comes back empty. -/
def noteCards (deck : DeckConfig) (remote : AnkiRemote) (db_id : Int) :
    List CardInfo :=
  let query := buildSearchForId deck db_id
  let card_ids := remote.findCards query
  if card_ids.isEmpty then [] else remote.cardsInfo card_ids

/-- `_fetch_single_feedback db_id` on a reachable remote. -/
def fetchSingleFeedback (deck : DeckConfig) (remote : AnkiRemote) (db_id : Int) :
    Option AnkiNoteFeedback :=
  match resolvedNote deck remote db_id with
  | none => none
  | some note =>
    let sf := aggregateCards (noteCards deck remote db_id)
    some
      { database_id := db_id
        anki_note_id := note.noteId
        deck_name := deck.deck_name
        model_name := note.modelName.getD deck.model_name
        question := get_field deck.field_map note.fields "question"
        answer := get_field deck.field_map note.fields "answer"
        topic := get_field deck.field_map note.fields "topic"
        suspended := sf.1
        flag := sf.2 }

/-- Failures `_post` can raise: a network/HTTP failure
(`raise_for_status` / connection error), or an application-level error
reported in the response's `error` field (`RuntimeError`). -/
inductive AnkiError where
  | transport
  | remoteRejection (msg : String)
deriving DecidableEq

/-- `asyncio.gather(*tasks)` over the per-id fetch threads, without
`return_exceptions`: all results in task order when no task raises, a
raised exception otherwise. -/
def gatherFetch (fetchOne : Int → Except AnkiError (Option AnkiNoteFeedback)) :
    List Int → Except AnkiError (List (Option AnkiNoteFeedback))
  | [] => .ok []
  | i :: rest =>
    match fetchOne i with
    | .error e => .error e
    | .ok r =>
      match gatherFetch fetchOne rest with
      | .error e => .error e
      | .ok rs => .ok (r :: rs)

/-- `AnkiConnectDeck.aget_feedback_for_database_ids`: fan the per-id
fetch out over the batch, gather, and drop the unresolved (`None`)
entries. -/
def aget_feedback_for_database_ids
    (fetchOne : Int → Except AnkiError (Option AnkiNoteFeedback))
    (database_ids : List Int) : Except AnkiError (List AnkiNoteFeedback) :=
  match gatherFetch fetchOne database_ids with
  | .error e => .error e
  | .ok results => .ok (results.filterMap (fun r => r))

/-! ## Card store (`database.py`)

The two tables are modelled as lists of row structures in storage
(insertion) order.  The feedback row carries its surrogate primary key
`id` alongside the data columns, because the load path reads it back:
the `database_id` field of `AnkiNoteFeedback` has the validation alias
`id`, and pydantic's alias-first attribute lookup populates it from the
row's `id` column.  The `updated_at` timestamp is storage-assigned and
never read back, so it is omitted.  The `database_id` column is
unique-indexed, so a reachable table never holds two rows with the same
`database_id` (the theorems below carry that invariant explicitly).  A storage-layer failure during an operation is
injected through explicit `initFault`/`fault` parameters matching where
the source can raise: inside `ainit_database` (which logs and re-raises)
or inside the session body (caught or re-raised per the operation's
`try`/`except` block). -/

structure CardRecord where
  id : Int
  question : String
  answer : String
  evaluation : String
  context : String
  topic : String
deriving DecidableEq

structure FeedbackRecord where
  id : Int
  database_id : Int
  anki_note_id : Int
  deck_name : String
  model_name : String
  question : String
  answer : String
  topic : String
  suspended : Bool
  flag : Int
deriving DecidableEq

inductive DBError where
  | initFailure
  | storage
deriving DecidableEq

/-- The row `asave_anki_feedback` inserts for one feedback value, under
the surrogate primary key the storage assigns. -/
def feedbackToRow (pk : Int) (fb : AnkiNoteFeedback) : FeedbackRecord :=
  { id := pk
    database_id := fb.database_id
    anki_note_id := fb.anki_note_id
    deck_name := fb.deck_name
    model_name := fb.model_name
    question := fb.question
    answer := fb.answer
    topic := fb.topic
    suspended := fb.suspended
    flag := fb.flag }

/-- The field-by-field assignment the upsert's update branch performs on
an existing row: the eight data fields are replaced; the surrogate key
and the matched `database_id` column are not assigned. -/
def setFeedbackFields (row : FeedbackRecord) (fb : AnkiNoteFeedback) : FeedbackRecord :=
  { row with
    anki_note_id := fb.anki_note_id
    deck_name := fb.deck_name
    model_name := fb.model_name
    question := fb.question
    answer := fb.answer
    topic := fb.topic
    suspended := fb.suspended
    flag := fb.flag }

/-- The data columns of a feedback row, each read under its own column
name (`database_id` from the `database_id` column). -/
def rowData (r : FeedbackRecord) : AnkiNoteFeedback :=
  { database_id := r.database_id
    anki_note_id := r.anki_note_id
    deck_name := r.deck_name
    model_name := r.model_name
    question := r.question
    answer := r.answer
    topic := r.topic
    suspended := r.suspended
    flag := r.flag }

/-- `AnkiNoteFeedback.model_validate(row)` on a loaded feedback row.
The `database_id` field carries the validation alias `id`, and
pydantic's `from_attributes` lookup tries the alias before the field
name, so the field is populated from the row's surrogate primary key
`id` column — not from the `database_id` column. -/
def rowToFeedback (r : FeedbackRecord) : AnkiNoteFeedback :=
  { database_id := r.id
    anki_note_id := r.anki_note_id
    deck_name := r.deck_name
    model_name := r.model_name
    question := r.question
    answer := r.answer
    topic := r.topic
    suspended := r.suspended
    flag := r.flag }

/-- The last element of `feedback_list` writing a given `database_id`:
the upsert loop assigns the row's fields once per matching list entry,
so the final row state comes from the last matching entry. -/
def lastWrite (fbs : List AnkiNoteFeedback) (did : Int) : Option AnkiNoteFeedback :=
  match fbs with
  | [] => none
  | fb :: rest =>
    match lastWrite rest did with
    | some fb2 => some fb2
    | none => if fb.database_id = did then some fb else none

/-- Field replacement an upsert call performs on one existing row. -/
def updFeedbackRow (fbs : List AnkiNoteFeedback) (row : FeedbackRecord) : FeedbackRecord :=
  match lastWrite fbs row.database_id with
  | some fb => setFeedbackFields row fb
  | none => row

/-- The surrogate key SQLite assigns to the next inserted feedback row:
one past the largest existing rowid. -/
def freshFeedbackId (table : List FeedbackRecord) : Int :=
  (table.map (fun r => r.id)).foldl max 0 + 1

/-- The rows the upsert's insert branch appends: one per list entry, in
`session.add` order, each under the next surrogate key. -/
def insertFeedbackRows (table : List FeedbackRecord) :
    List AnkiNoteFeedback → List FeedbackRecord
  | [] => table
  | fb :: rest => insertFeedbackRows (table ++ [feedbackToRow (freshFeedbackId table) fb]) rest

/-- The session body of `asave_anki_feedback` on a non-empty list: rows
whose `database_id` already exists are updated field by field, the rest
are inserted via `session.add` in list order; `commit` raises an
integrity error (rolling everything back) when two inserted rows collide
on the unique `database_id` column. -/
def upsertRows (table : List FeedbackRecord) (fbs : List AnkiNoteFeedback) :
    Except DBError (List FeedbackRecord) :=
  if ((fbs.filter
        (fun fb => !((table.map (fun r => r.database_id)).contains fb.database_id))).map
          (fun fb => fb.database_id)).Nodup then
    .ok (insertFeedbackRows (table.map (updFeedbackRow fbs))
          (fbs.filter
            (fun fb => !((table.map (fun r => r.database_id)).contains fb.database_id))))
  else .error .storage

/-- `CardDatabase.asave_anki_feedback`: empty input returns before any
storage work; `ainit_database` runs outside the `try` and re-raises its
own failures; every exception inside the session body is logged and
re-raised. -/
def asave_anki_feedback (table : List FeedbackRecord) (fbs : List AnkiNoteFeedback)
    (initFault queryFault : Bool) : Except DBError (List FeedbackRecord) :=
  if fbs.isEmpty then .ok table
  else if initFault then .error .initFailure
  else if queryFault then .error .storage
  else upsertRows table fbs

/-- `CardDatabase.aload_anki_feedback`: empty id list returns before any
storage work; an `ainit_database` failure propagates (`ainit` runs
before the `try`); a failure inside the session body is logged and
degrades to the empty list. -/
def aload_anki_feedback (table : List FeedbackRecord) (database_ids : List Int)
    (initFault queryFault : Bool) : Except DBError (List AnkiNoteFeedback) :=
  if database_ids.isEmpty then .ok []
  else if initFault then .error .initFailure
  else if queryFault then .ok []
  else .ok ((table.filter (fun r => database_ids.contains r.database_id)).map rowToFeedback)

/-- The id SQLite assigns to the next inserted `cards` row: one past the
largest existing rowid. -/
def freshCardId (table : List CardRecord) : Int :=
  (table.map (fun r => r.id)).foldl max 0 + 1

/-- The update branch of the `asave_cards` loop: `setattr` for every key
of `card.model_dump(exclude_defaults=True, exclude={"database_id"})`.
`question` and `answer` have no default and are always assigned;
`evaluation`, `context` and `topic` are dropped from the dump — leaving
the stored value untouched — whenever the card carries the `Card`
default (`"not_evaluated"`, `""`, `""` respectively). -/
def applyCardUpdate (row : CardRecord) (c : Card) : CardRecord :=
  { row with
    question := c.question
    answer := c.answer
    evaluation := if c.evaluation = "not_evaluated" then row.evaluation else c.evaluation
    context := if c.context = "" then row.context else c.context
    topic := if c.topic = "" then row.topic else c.topic }

/-- Whether a card takes the update branch: it carries a `database_id`
present in the pre-call table (the `existing_cards_map` is queried once
against the state before the loop). -/
def cardMatches (preIds : List Int) (c : Card) : Bool :=
  match c.database_id with
  | some i => preIds.contains i
  | none => false

/-- The row the insert branch creates.  `evaluation` lands on the card's
value either directly or (when the card holds the default) through the
column default `"not_evaluated"`, which is the same string. -/
def insertCardRecord (table : List CardRecord) (c : Card) : CardRecord :=
  { id := freshCardId table
    question := c.question
    answer := c.answer
    evaluation := c.evaluation
    context := c.context
    topic := c.topic }

/-- An inserted card whose dump omits `context` or `topic` (both
`nullable=False` columns without a column default) makes the commit
raise an integrity error. -/
def cardInsertViolatesNotNull (preIds : List Int) (c : Card) : Bool :=
  !cardMatches preIds c && (c.context = "" || c.topic = "")

/-- The `asave_cards` loop: updates mutate the matched row in place,
inserts append a freshly-identified row; the returned list carries, per
input card in order, the card annotated with the row id it ended on. -/
def saveCardsLoop (preIds : List Int) (table : List CardRecord) :
    List Card → List CardRecord × List Card
  | [] => (table, [])
  | c :: cs =>
    if cardMatches preIds c then
      let i := c.database_id.getD 0
      let next := saveCardsLoop preIds
        (table.map (fun r => if r.id = i then applyCardUpdate r c else r)) cs
      (next.1, { c with database_id := some i } :: next.2)
    else
      let newRow := insertCardRecord table c
      let next := saveCardsLoop preIds (table ++ [newRow]) cs
      (next.1, { c with database_id := some newRow.id } :: next.2)

/-- `CardDatabase.asave_cards`: any storage exception — injected through
`fault` or raised by the commit's NOT NULL checks — is logged and
re-raised; otherwise the batch is applied and the annotated cards are
returned in input order. -/
def asave_cards (table : List CardRecord) (cards : List Card) (fault : Bool) :
    Except DBError (List CardRecord × List Card) :=
  if fault then .error .storage
  else
    let preIds := table.map (fun r => r.id)
    if cards.any (cardInsertViolatesNotNull preIds) then .error .storage
    else .ok (saveCardsLoop preIds table cards)

/-- Insertion into a list sorted by ascending row id, modelling the
`order_by(CardRecord.id)` of `aload_cards`. -/
def insertById (r : CardRecord) : List CardRecord → List CardRecord
  | [] => [r]
  | x :: xs => if r.id ≤ x.id then r :: x :: xs else x :: insertById r xs

def sortById : List CardRecord → List CardRecord
  | [] => []
  | x :: xs => insertById x (sortById xs)

/-- `Card.model_validate(card_orm)` on a loaded card row. -/
def recordToCard (r : CardRecord) : Card :=
  { question := r.question
    answer := r.answer
    topic := r.topic
    context := r.context
    evaluation := r.evaluation
    database_id := some r.id }

/-- `CardDatabase.aload_cards`: rows of the context in ascending id
order, re-stamped with the requested context; any storage exception is
logged and degrades to the empty list. -/
def aload_cards (table : List CardRecord) (context : String) (fault : Bool) :
    List Card :=
  if fault then []
  else
    (sortById (table.filter (fun r => r.context = context))).map
      (fun r => { recordToCard r with context := context })

/-- String insertion sort, modelling `distinct().order_by(context)`. -/
def insertStr (s : String) : List String → List String
  | [] => [s]
  | x :: xs => if s < x ∨ s = x then s :: x :: xs else x :: insertStr s xs

def sortStrs : List String → List String
  | [] => []
  | x :: xs => insertStr x (sortStrs xs)

/-- `CardDatabase.aget_contexts`: the distinct contexts in ascending
order; any storage exception is logged and degrades to the empty list. -/
def aget_contexts (table : List CardRecord) (fault : Bool) : List String :=
  if fault then []
  else sortStrs (table.map (fun r => r.context)).dedup

/-! ## Reconciliation service (`anki_sync.py`) -/

/-- What one `sync_feedback_for_context` run did: the returned count,
the id batch handed to the external source (`none` when no fetch call
was made) and the feedback list handed to the store (`none` when no
write call was made). -/
structure SyncTrace where
  count : Nat
  fetchedIds : Option (List Int)
  saved : Option (List AnkiNoteFeedback)
deriving DecidableEq

/-- `sync_feedback_for_context`, over the cards the store loaded for the
context and the deck's fetch operation.  The function wraps no call in
`try`/`except`: an exception from the fetch propagates to the caller.
(The persistence call's own failure modes live in
`asave_anki_feedback`.) -/
def sync_feedback_for_context (cards : List Card)
    (fetch : List Int → Except AnkiError (List AnkiNoteFeedback)) :
    Except AnkiError SyncTrace :=
  if cards.isEmpty then .ok ⟨0, none, none⟩
  else
    let database_ids := cards.filterMap (fun c => c.database_id)
    if database_ids.isEmpty then .ok ⟨0, none, none⟩
    else
      match fetch database_ids with
      | .error e => .error e
      | .ok feedback =>
        if feedback.isEmpty then .ok ⟨0, some database_ids, none⟩
        else .ok ⟨feedback.length, some database_ids, some feedback⟩

/-! ## General list helpers -/

theorem map_congr_mem {α β : Type} (l : List α) (f g : α → β)
    (h : ∀ x ∈ l, f x = g x) : l.map f = l.map g := by
  induction l with
  | nil => rfl
  | cons x xs ih =>
    simp only [List.map_cons]
    exact congrArg₂ _ (h x (by simp)) (ih fun y hy => h y (by simp [hy]))

theorem map_id_of_forall {α : Type} (l : List α) (f : α → α)
    (h : ∀ x ∈ l, f x = x) : l.map f = l := by
  rw [map_congr_mem l f id h]
  exact List.map_id l

theorem filter_map_proj {α β : Type} (f : α → β) (q : β → Bool) (l : List α) :
    (l.filter (fun x => q (f x))).map f = (l.map f).filter q := by
  induction l with
  | nil => rfl
  | cons x xs ih =>
    by_cases hq : q (f x) <;> simp [hq, ih]

theorem contains_eq_true_iff (l : List Int) (a : Int) :
    l.contains a = true ↔ a ∈ l := by
  simp [List.contains]

theorem contains_eq_false_iff (l : List Int) (a : Int) :
    l.contains a = false ↔ a ∉ l := by
  rw [← Bool.not_eq_true, not_iff_not]
  exact contains_eq_true_iff l a

/-! ## Sample values used by concrete runs -/

def fbOne : AnkiNoteFeedback :=
  { database_id := 1, anki_note_id := 11, deck_name := "Deck", model_name := "Model",
    question := "Q1", answer := "A1", topic := "T1", suspended := false, flag := 0 }

def fbOneB : AnkiNoteFeedback :=
  { database_id := 1, anki_note_id := 11, deck_name := "Deck", model_name := "Model",
    question := "Q1 edited", answer := "A1 edited", topic := "T1", suspended := true, flag := 2 }

def fbThree : AnkiNoteFeedback :=
  { database_id := 3, anki_note_id := 13, deck_name := "Deck", model_name := "Model",
    question := "Q3", answer := "A3", topic := "T3", suspended := true, flag := 3 }

def cardOne : Card :=
  { question := "Q1", answer := "A1", topic := "T1", context := "doc1",
    evaluation := "seen", database_id := some 1 }

def cardNoId : Card :=
  { question := "Q2", answer := "A2", topic := "T2", context := "doc1",
    evaluation := "seen", database_id := none }

def emptyFetch : List Int → Except AnkiError (List AnkiNoteFeedback) :=
  fun _ => .ok []

/-- A per-id fetch where the lookups for ids 1 and 3 succeed and every
other id's lookup raises a transport fault. -/
def faultyFetchOne : Int → Except AnkiError (Option AnkiNoteFeedback) :=
  fun i =>
    if i = 1 then .ok (some fbOne)
    else if i = 3 then .ok (some fbThree)
    else .error .transport

/-! ## Fan-out behaviour of the external feedback source (C1, C10) -/

theorem gatherFetch_pure (f : Int → Option AnkiNoteFeedback) (ids : List Int) :
    gatherFetch (fun i => .ok (f i)) ids = .ok (ids.map f) := by
  induction ids with
  | nil => rfl
  | cons i rest ih => simp [gatherFetch, ih]

/-- C1: a transport fault raised while resolving one id of the batch
makes `aget_feedback_for_database_ids` raise for the whole batch — on
`[1, 2, 3]` with the id-2 lookup faulting, the call produces an error
and no list at all, even though the lookups for ids 1 and 3 succeed.
This contradicts the claimed per-id isolation (and the repository's own
`test_sync_error_handling`, which expects raised lookups to degrade to
an empty list). -/
theorem aget_feedback_batch_abort :
    aget_feedback_for_database_ids faultyFetchOne [1, 2, 3] = .error .transport
      ∧ faultyFetchOne 1 = .ok (some fbOne)
      ∧ faultyFetchOne 3 = .ok (some fbThree) :=
  ⟨rfl, rfl, rfl⟩

/-- C10: when every per-id lookup completes without raising,
`aget_feedback_for_database_ids` returns the resolved feedback in
exactly the order the ids were requested, with unresolved ids removed:
`asyncio.gather` aggregates in task order, and the `None` filter keeps
that order. -/
theorem aget_feedback_preserves_order (f : Int → Option AnkiNoteFeedback)
    (ids : List Int) :
    aget_feedback_for_database_ids (fun i => .ok (f i)) ids = .ok (ids.filterMap f) := by
  simp only [aget_feedback_for_database_ids, gatherFetch_pure]
  simp [List.filterMap_map]
  rfl

/-! ## Reconciliation error propagation (C2) and skip conditions (C5) -/

/-- C2 counterexample: a transport error raised by the fetch propagates
out of `sync_feedback_for_context` — the sync does not return 0. -/
theorem sync_swallow_counterexample :
    sync_feedback_for_context [cardOne] (fun _ => .error .transport) = .error .transport
      ∧ .error .transport ≠ (.ok ⟨0, none, none⟩ :
          Except AnkiError SyncTrace) := by
  exact ⟨rfl, by simp⟩

/-- C2 (amended): `sync_feedback_for_context` wraps the fetch in no
handler, so every fetch failure — transport and remote-rejection alike —
propagates to the caller; the sync returns 0 only when there are no
cards, no assigned ids, or an empty feedback list. -/
theorem sync_propagates_fetch_errors (cards : List Card)
    (fetch : List Int → Except AnkiError (List AnkiNoteFeedback)) (e : AnkiError)
    (hcards : cards ≠ [])
    (hids : cards.filterMap (fun c => c.database_id) ≠ [])
    (hfetch : fetch (cards.filterMap (fun c => c.database_id)) = .error e) :
    sync_feedback_for_context cards fetch = .error e := by
  simp [sync_feedback_for_context, hcards, hids, hfetch]

theorem sync_propagates_fetch_errors_witness :
    sync_feedback_for_context [cardOne] (fun _ => .error (.remoteRejection "err"))
      = .error (.remoteRejection "err") :=
  sync_propagates_fetch_errors [cardOne] (fun _ => .error (.remoteRejection "err"))
    (.remoteRejection "err") (by simp) (by simp [cardOne]) rfl

/-- C5: a context with no loaded cards, and a context whose cards all
lack a `database_id`, sync to 0 with no fetch and no write (the trace
records neither call); and every id in the batch handed to the fetch
comes from a card that carries it. -/
theorem sync_skips_empty_and_unassigned :
    (∀ (fetch : List Int → Except AnkiError (List AnkiNoteFeedback)) (cards : List Card),
        cards = [] → sync_feedback_for_context cards fetch = .ok ⟨0, none, none⟩)
  ∧ (∀ (fetch : List Int → Except AnkiError (List AnkiNoteFeedback)) (cards : List Card),
        (∀ c ∈ cards, c.database_id = none) →
        sync_feedback_for_context cards fetch = .ok ⟨0, none, none⟩)
  ∧ (∀ (cards : List Card) (i : Int),
        i ∈ cards.filterMap (fun c => c.database_id) →
        ∃ c ∈ cards, c.database_id = some i) := by
  refine ⟨?_, ?_, ?_⟩
  · intro fetch cards h
    subst h
    rfl
  · intro fetch cards h
    have hids : cards.filterMap (fun c => c.database_id) = [] :=
      List.filterMap_eq_nil_iff.mpr h
    by_cases hc : cards = []
    · subst hc; rfl
    · simp [sync_feedback_for_context, hc, hids]
  · intro cards i hi
    exact List.mem_filterMap.mp hi

theorem sync_skips_empty_and_unassigned_witness :
    sync_feedback_for_context [] emptyFetch = .ok ⟨0, none, none⟩
  ∧ sync_feedback_for_context [cardNoId] emptyFetch = .ok ⟨0, none, none⟩
  ∧ ∃ c ∈ [cardOne], c.database_id = some 1 :=
  ⟨sync_skips_empty_and_unassigned.1 emptyFetch [] rfl,
   sync_skips_empty_and_unassigned.2.1 emptyFetch [cardNoId] (by decide),
   sync_skips_empty_and_unassigned.2.2 [cardOne] 1 (by decide)⟩

/-! ## Read/write failure split of the card store (C7) -/

/-- C7 counterexample: a storage failure while `aload_anki_feedback`
initializes the schema (its `ainit_database` call sits before the
`try`) propagates out of the read instead of degrading to an empty
result. -/
theorem load_feedback_init_raises_counterexample :
    aload_anki_feedback [] [1] true false = .error .initFailure
      ∧ .error .initFailure ≠ (.ok [] : Except DBError (List AnkiNoteFeedback)) := by
  exact ⟨rfl, by simp⟩

/-- C7 (amended): storage failures inside the guarded session body make
the reads (`aload_cards`, `aget_contexts`, `aload_anki_feedback`) return
an empty result and make the writes (`asave_cards`,
`asave_anki_feedback`) raise — except that `aload_anki_feedback`
propagates a failure of its schema-initialization step rather than
degrading to empty. -/
theorem read_write_failure_split :
    (∀ (table : List CardRecord) (context : String),
        aload_cards table context true = [])
  ∧ (∀ table : List CardRecord, aget_contexts table true = [])
  ∧ (∀ (table : List FeedbackRecord) (ids : List Int),
        aload_anki_feedback table ids false true = .ok [])
  ∧ (∀ (table : List CardRecord) (cards : List Card),
        asave_cards table cards true = .error .storage)
  ∧ (∀ (table : List FeedbackRecord) (fbs : List AnkiNoteFeedback), fbs ≠ [] →
        asave_anki_feedback table fbs false true = .error .storage)
  ∧ (∀ (table : List FeedbackRecord) (ids : List Int), ids ≠ [] →
        aload_anki_feedback table ids true false = .error .initFailure) := by
  refine ⟨fun _ _ => rfl, fun _ => rfl, ?_, fun _ _ => rfl, ?_, ?_⟩
  · intro table ids
    by_cases h : ids.isEmpty <;> simp [aload_anki_feedback, h]
  · intro table fbs h
    simp [asave_anki_feedback, h]
  · intro table ids h
    simp [aload_anki_feedback, h]

theorem read_write_failure_split_witness :
    asave_anki_feedback [] [fbOne] false true = .error .storage
  ∧ aload_anki_feedback [] [1, 3] true false = .error .initFailure :=
  ⟨read_write_failure_split.2.2.2.2.1 [] [fbOne] (by simp),
   read_write_failure_split.2.2.2.2.2 [] [1, 3] (by simp)⟩

/-! ## Field extraction through the configurable mapping (C9) -/

theorem defaultFieldMap_question :
    ((defaultFieldMap.lookup "question").getD "question") = "Question" := rfl

theorem defaultFieldMap_answer :
    ((defaultFieldMap.lookup "answer").getD "answer") = "Answer" := rfl

theorem defaultFieldMap_topic :
    ((defaultFieldMap.lookup "topic").getD "topic") = "Topic" := rfl

/-- C9: the constructor defaults the field mapping to
question→"Question", answer→"Answer", topic→"Topic"; the feedback's
question/answer/topic come from `get_field` over that mapping applied to
the resolved note's fields; and a field missing from the note, or
present without a value, extracts as the empty string (the extraction is
total — it never raises). -/
theorem field_extraction_defaults :
    (∀ dn mn idf ep, (mkAnkiConnectDeck dn mn idf none ep).field_map = defaultFieldMap)
  ∧ (∀ dn mn idf ep, (mkAnkiConnectDeck dn mn idf (some []) ep).field_map = defaultFieldMap)
  ∧ (∀ (deck : DeckConfig) (remote : AnkiRemote) (db_id : Int)
        (fb : AnkiNoteFeedback) (note : NoteInfo),
        fetchSingleFeedback deck remote db_id = some fb →
        resolvedNote deck remote db_id = some note →
        fb.question = get_field deck.field_map note.fields "question"
        ∧ fb.answer = get_field deck.field_map note.fields "answer"
        ∧ fb.topic = get_field deck.field_map note.fields "topic")
  ∧ (∀ fields : NoteFields,
        get_field defaultFieldMap fields "question"
          = (match fields.lookup "Question" with
             | some (some v) => v | some none => "" | none => "")
        ∧ get_field defaultFieldMap fields "answer"
          = (match fields.lookup "Answer" with
             | some (some v) => v | some none => "" | none => "")
        ∧ get_field defaultFieldMap fields "topic"
          = (match fields.lookup "Topic" with
             | some (some v) => v | some none => "" | none => ""))
  ∧ (∀ (fm : List (String × String)) (fields : NoteFields) (key : String),
        fields.lookup ((fm.lookup key).getD key) = none →
        get_field fm fields key = "")
  ∧ (∀ (fm : List (String × String)) (fields : NoteFields) (key : String),
        fields.lookup ((fm.lookup key).getD key) = some none →
        get_field fm fields key = "") := by
  refine ⟨fun _ _ _ _ => rfl, fun _ _ _ _ => rfl, ?_, ?_, ?_, ?_⟩
  · intro deck remote db_id fb note hfb hnote
    unfold fetchSingleFeedback at hfb
    rw [hnote] at hfb
    have := Option.some.inj hfb
    subst this
    exact ⟨rfl, rfl, rfl⟩
  · intro fields
    refine ⟨?_, ?_, ?_⟩
    · cases hq : fields.lookup "Question" with
      | none => simp [get_field, defaultFieldMap_question, hq]
      | some o => cases o <;> simp [get_field, defaultFieldMap_question, hq]
    · cases hq : fields.lookup "Answer" with
      | none => simp [get_field, defaultFieldMap_answer, hq]
      | some o => cases o <;> simp [get_field, defaultFieldMap_answer, hq]
    · cases hq : fields.lookup "Topic" with
      | none => simp [get_field, defaultFieldMap_topic, hq]
      | some o => cases o <;> simp [get_field, defaultFieldMap_topic, hq]
  · intro fm fields key h
    simp [get_field, h]
  · intro fm fields key h
    simp [get_field, h]

def deckDefault : DeckConfig :=
  mkAnkiConnectDeck "Deck" "Model" "id" none "http://127.0.0.1:8765"

def noteW : NoteInfo :=
  { noteId := 10001, modelName := some "Model",
    fields := [("Question", some "What is Python?"), ("Answer", none)] }

def remoteW : AnkiRemote :=
  { findNotes := fun _ => [10001], notesInfo := fun _ => [noteW],
    findCards := fun _ => [], cardsInfo := fun _ => [] }

def fbW : AnkiNoteFeedback :=
  { database_id := 1, anki_note_id := 10001, deck_name := "Deck", model_name := "Model",
    question := "What is Python?", answer := "", topic := "",
    suspended := false, flag := 0 }

theorem field_extraction_defaults_witness :
    fbW.question = get_field deckDefault.field_map noteW.fields "question"
  ∧ fbW.answer = get_field deckDefault.field_map noteW.fields "answer"
  ∧ fbW.topic = get_field deckDefault.field_map noteW.fields "topic" :=
  field_extraction_defaults.2.2.1 deckDefault remoteW 1 fbW noteW rfl rfl

/-! ## Suspension and flag aggregation (C4) -/

theorem aggregateCards_fold (cards : List CardInfo) (b : Bool) (n : Int) :
    cards.foldl
        (fun acc card => (acc.1 || cardMarksSuspended card, max acc.2 (parseFlag card.flags)))
        (b, n)
      = (b || cards.any cardMarksSuspended,
         (cards.map (fun c => parseFlag c.flags)).foldl max n) := by
  induction cards generalizing b n with
  | nil => simp
  | cons c cs ih => simp [ih, Bool.or_assoc]

theorem aggregateCards_fst (cards : List CardInfo) :
    (aggregateCards cards).1 = cards.any cardMarksSuspended := by
  simp [aggregateCards, aggregateCards_fold]

theorem aggregateCards_snd (cards : List CardInfo) :
    (aggregateCards cards).2 = (cards.map (fun c => parseFlag c.flags)).foldl max 0 := by
  simp [aggregateCards, aggregateCards_fold]

theorem foldl_max_le_init (l : List Int) (a : Int) : a ≤ l.foldl max a := by
  induction l generalizing a with
  | nil => simp
  | cons x xs ih => exact le_trans (le_max_left a x) (ih (max a x))

theorem le_foldl_max (l : List Int) (a : Int) : ∀ x ∈ l, x ≤ l.foldl max a := by
  induction l generalizing a with
  | nil => simp
  | cons y ys ih =>
    intro x hx
    rcases List.mem_cons.mp hx with h | h
    · subst h
      exact le_trans (le_max_right a x) (foldl_max_le_init ys (max a x))
    · exact ih (max a y) x h

theorem foldl_max_mem (l : List Int) (a : Int) :
    l.foldl max a = a ∨ l.foldl max a ∈ l := by
  induction l generalizing a with
  | nil => simp
  | cons x xs ih =>
    rcases ih (max a x) with h | h
    · rcases max_choice a x with hm | hm
      · left; rw [List.foldl_cons, h, hm]
      · right; rw [List.foldl_cons, h, hm]; exact List.mem_cons_self x xs
    · right; rw [List.foldl_cons]; exact List.mem_cons_of_mem x h

/-- C4: for every resolved note — if the note has no cards, the
feedback carries `suspended = false` and `flag = 0`; if it has cards,
`suspended` is true exactly when some card is explicitly suspended or
sits in queue -1, and (with every card's flag value non-negative,
unparseable values counting as 0) `flag` is the attained maximum of the
cards' flag values.  `parseFlag` is total, so flag parsing never
raises. -/
theorem fetch_suspended_flag_aggregation (deck : DeckConfig) (remote : AnkiRemote)
    (db_id : Int) (fb : AnkiNoteFeedback)
    (h : fetchSingleFeedback deck remote db_id = some fb) :
    (noteCards deck remote db_id = [] → fb.suspended = false ∧ fb.flag = 0)
  ∧ (noteCards deck remote db_id ≠ [] →
      ((fb.suspended = true ↔
          ∃ c ∈ noteCards deck remote db_id,
            (c.suspended.getD false = true ∨ c.queue = some (-1)))
       ∧ ((∀ c ∈ noteCards deck remote db_id, 0 ≤ parseFlag c.flags) →
            fb.flag ∈ (noteCards deck remote db_id).map (fun c => parseFlag c.flags)
            ∧ ∀ v ∈ (noteCards deck remote db_id).map (fun c => parseFlag c.flags),
                v ≤ fb.flag))) := by
  unfold fetchSingleFeedback at h
  cases hres : resolvedNote deck remote db_id with
  | none => rw [hres] at h; exact absurd h (by simp)
  | some note =>
    rw [hres] at h
    have hfb := Option.some.inj h
    subst hfb
    constructor
    · intro hcards
      constructor
      · simp [aggregateCards_fst, hcards]
      · simp [aggregateCards_snd, hcards]
    · intro hcards
      constructor
      · rw [show (AnkiNoteFeedback.suspended _) =
            (aggregateCards (noteCards deck remote db_id)).1 from rfl]
        rw [aggregateCards_fst]
        rw [List.any_eq_true]
        constructor
        · rintro ⟨c, hc, hm⟩
          refine ⟨c, hc, ?_⟩
          simpa [cardMarksSuspended] using hm
        · rintro ⟨c, hc, hm⟩
          refine ⟨c, hc, ?_⟩
          simpa [cardMarksSuspended] using hm
      · intro hnonneg
        rw [show (AnkiNoteFeedback.flag _) =
            (aggregateCards (noteCards deck remote db_id)).2 from rfl]
        rw [aggregateCards_snd]
        set vals := (noteCards deck remote db_id).map (fun c => parseFlag c.flags) with hvals
        have hub : ∀ v ∈ vals, v ≤ vals.foldl max 0 := le_foldl_max vals 0
        refine ⟨?_, hub⟩
        rcases foldl_max_mem vals 0 with hm | hm
        · obtain ⟨c, hc⟩ := List.exists_mem_of_ne_nil _ hcards
          have hv : parseFlag c.flags ∈ vals := by
            rw [hvals]; exact List.mem_map_of_mem _ hc
          have h1 : parseFlag c.flags ≤ 0 := hm ▸ hub _ hv
          have h2 : 0 ≤ parseFlag c.flags := hnonneg c hc
          have h0 : parseFlag c.flags = 0 := le_antisymm h1 h2
          rw [hm, ← h0]
          exact hv
        · exact hm

def noteC4 : NoteInfo :=
  { noteId := 12345, modelName := some "Model",
    fields := [("Question", some "Q"), ("Answer", some "A"), ("Topic", some "T")] }

def cardInfoA : CardInfo :=
  { suspended := some false, queue := some 1, flags := .int 0 }

def cardInfoB : CardInfo :=
  { suspended := some true, queue := some (-1), flags := .int 2 }

def remoteC4 : AnkiRemote :=
  { findNotes := fun _ => [12345], notesInfo := fun _ => [noteC4],
    findCards := fun _ => [54321, 54322], cardsInfo := fun _ => [cardInfoA, cardInfoB] }

def fbC4 : AnkiNoteFeedback :=
  { database_id := 7, anki_note_id := 12345, deck_name := "Deck", model_name := "Model",
    question := "Q", answer := "A", topic := "T", suspended := true, flag := 2 }

theorem fetch_suspended_flag_aggregation_witness :
    (fbC4.suspended = true ↔
       ∃ c ∈ noteCards deckDefault remoteC4 7,
         (c.suspended.getD false = true ∨ c.queue = some (-1)))
  ∧ fbC4.flag ∈ (noteCards deckDefault remoteC4 7).map (fun c => parseFlag c.flags)
  ∧ ∀ v ∈ (noteCards deckDefault remoteC4 7).map (fun c => parseFlag c.flags),
      v ≤ fbC4.flag := by
  have h := (fetch_suspended_flag_aggregation deckDefault remoteC4 7 fbC4 rfl).2
    (by decide)
  exact ⟨h.1, (h.2 (by decide)).1, (h.2 (by decide)).2⟩

/-! ## Card save semantics (C6) -/

def rowLiked : CardRecord :=
  { id := 1, question := "Q0", answer := "A0", evaluation := "liked",
    context := "doc1", topic := "T0" }

def cardDefaultEval : Card :=
  { question := "Q1", answer := "A1", topic := "T1", context := "doc1",
    evaluation := "not_evaluated", database_id := some 1 }

def cardEmptyTopic : Card :=
  { question := "Q9", answer := "A9", topic := "", context := "doc1",
    evaluation := "seen", database_id := none }

/-- C6 counterexample: updating row 1 (stored evaluation `"liked"`) with
a card whose evaluation is the `Card` default `"not_evaluated"` leaves
the stored evaluation at `"liked"` — `model_dump(exclude_defaults=True)`
drops the field — so the row is not updated to the input card's values;
and an unmatched card whose topic is the default `""` makes the save
raise (the dump omits the NOT NULL `topic` column) instead of inserting
a new row. -/
theorem save_cards_default_fields_counterexample :
    asave_cards [rowLiked] [cardDefaultEval] false =
      .ok ([{ id := 1, question := "Q1", answer := "A1", evaluation := "liked",
              context := "doc1", topic := "T1" }],
           [{ cardDefaultEval with database_id := some 1 }])
  ∧ cardDefaultEval.evaluation = "not_evaluated"
  ∧ "liked" ≠ "not_evaluated"
  ∧ asave_cards [] [cardEmptyTopic] false = .error .storage
  ∧ cardEmptyTopic.database_id = none :=
  ⟨rfl, rfl, by decide, rfl, rfl⟩

theorem saveCardsLoop_outs (preIds : List Int) (cards : List Card) :
    ∀ table : List CardRecord,
      ((saveCardsLoop preIds table cards).2.map (fun c => { c with database_id := none }))
        = cards.map (fun c => { c with database_id := none })
      ∧ ∀ c ∈ (saveCardsLoop preIds table cards).2, c.database_id.isSome := by
  induction cards with
  | nil => intro table; simp [saveCardsLoop]
  | cons c cs ih =>
    intro table
    by_cases hm : cardMatches preIds c
    · simp only [saveCardsLoop, hm, if_pos]
      refine ⟨?_, ?_⟩
      · simp [(ih _).1]
      · intro x hx
        rcases List.mem_cons.mp hx with h | h
        · subst h; rfl
        · exact (ih _).2 x h
    · simp only [saveCardsLoop, hm, if_neg, Bool.false_eq_true, not_false_iff]
      refine ⟨?_, ?_⟩
      · simp [(ih _).1]
      · intro x hx
        rcases List.mem_cons.mp hx with h | h
        · subst h; rfl
        · exact (ih _).2 x h

/-- The matched cards of a batch that update the row carrying a given
id, in input order: the update branch assigns the row's fields once per
such card, so the row's final state folds them left to right. -/
def updatesFor (preIds : List Int) (cards : List Card) (i : Int) : List Card :=
  cards.filter (fun c => cardMatches preIds c && c.database_id == some i)

/-- The final state a batch leaves a pre-existing row in. -/
def rowAfterUpdates (preIds : List Int) (cards : List Card) (r : CardRecord) : CardRecord :=
  (updatesFor preIds cards r.id).foldl applyCardUpdate r

/-- Closed form of the rows a batch inserts: one per card not matching
an existing row, in input order, under successive identities one past
the running maximum row id. -/
def insertRowsSpec (preIds : List Int) (m : Int) : List Card → List CardRecord
  | [] => []
  | c :: cs =>
    if cardMatches preIds c then insertRowsSpec preIds m cs
    else { id := m + 1, question := c.question, answer := c.answer,
           evaluation := c.evaluation, context := c.context,
           topic := c.topic } :: insertRowsSpec preIds (m + 1) cs

/-- Closed form of the returned cards: matched cards keep their id, each
unmatched card is annotated with its freshly assigned row id. -/
def annotateSpec (preIds : List Int) (m : Int) : List Card → List Card
  | [] => []
  | c :: cs =>
    if cardMatches preIds c then c :: annotateSpec preIds m cs
    else { c with database_id := some (m + 1) } :: annotateSpec preIds (m + 1) cs

theorem applyCardUpdate_id (r : CardRecord) (c : Card) :
    (applyCardUpdate r c).id = r.id := rfl

theorem foldl_applyCardUpdate_id (l : List Card) :
    ∀ r : CardRecord, (l.foldl applyCardUpdate r).id = r.id := by
  induction l with
  | nil => intro r; rfl
  | cons c cs ih => intro r; exact ih (applyCardUpdate r c)

theorem rowAfterUpdates_id (preIds : List Int) (cards : List Card) (r : CardRecord) :
    (rowAfterUpdates preIds cards r).id = r.id :=
  foldl_applyCardUpdate_id _ r

theorem rowAfterUpdates_matched_step (preIds : List Int) (c : Card) (cs : List Card)
    (i : Int) (hm : cardMatches preIds c = true) (hi : c.database_id = some i)
    (r : CardRecord) :
    rowAfterUpdates preIds cs (if r.id = i then applyCardUpdate r c else r)
      = rowAfterUpdates preIds (c :: cs) r := by
  by_cases hri : r.id = i
  · subst hri
    rw [if_pos rfl]
    unfold rowAfterUpdates updatesFor
    simp only [List.filter_cons, hm, Bool.true_and, hi, applyCardUpdate_id,
      beq_self_eq_true, if_true, List.foldl_cons]
  · rw [if_neg hri]
    unfold rowAfterUpdates updatesFor
    have h1 : (c.database_id == some r.id) = false := by
      rw [hi]
      exact beq_eq_false_iff_ne.mpr (fun h => hri (Option.some.inj h).symm)
    simp only [List.filter_cons, h1, Bool.and_false, Bool.false_eq_true, if_false]

theorem rowAfterUpdates_unmatched_step (preIds : List Int) (c : Card) (cs : List Card)
    (hm : cardMatches preIds c = false) (r : CardRecord) :
    rowAfterUpdates preIds (c :: cs) r = rowAfterUpdates preIds cs r := by
  unfold rowAfterUpdates updatesFor
  simp only [List.filter_cons, hm, Bool.false_and, Bool.false_eq_true, if_false]

theorem rowAfterUpdates_eq_self (preIds : List Int) (cards : List Card)
    (r : CardRecord) (h : r.id ∉ preIds) :
    rowAfterUpdates preIds cards r = r := by
  unfold rowAfterUpdates updatesFor
  have hnil : cards.filter
      (fun c => cardMatches preIds c && c.database_id == some r.id) = [] := by
    rw [List.filter_eq_nil_iff]
    intro c hc hpred
    rw [Bool.and_eq_true] at hpred
    obtain ⟨h1, h2⟩ := hpred
    rw [beq_iff_eq] at h2
    unfold cardMatches at h1
    rw [h2] at h1
    exact h ((contains_eq_true_iff _ _).mp h1)
  rw [hnil]
  rfl

theorem saveCardsLoop_spec (preIds : List Int) :
    ∀ (cards : List Card) (table : List CardRecord),
      (∀ i ∈ preIds, i ≤ (table.map (fun r => r.id)).foldl max 0) →
      saveCardsLoop preIds table cards
        = (table.map (rowAfterUpdates preIds cards)
            ++ insertRowsSpec preIds ((table.map (fun r => r.id)).foldl max 0) cards,
           annotateSpec preIds ((table.map (fun r => r.id)).foldl max 0) cards) := by
  intro cards
  induction cards with
  | nil =>
    intro table hb
    rw [show saveCardsLoop preIds table [] = (table, []) from rfl]
    rw [show insertRowsSpec preIds ((table.map (fun r => r.id)).foldl max 0) [] = []
        from rfl]
    rw [show annotateSpec preIds ((table.map (fun r => r.id)).foldl max 0) [] = []
        from rfl]
    rw [List.append_nil,
      map_id_of_forall table (rowAfterUpdates preIds []) (fun r _ => rfl)]
  | cons c cs ih =>
    intro table hb
    by_cases hm : cardMatches preIds c
    · obtain ⟨i, hi⟩ : ∃ i, c.database_id = some i := by
        unfold cardMatches at hm
        cases hdb : c.database_id with
        | none => rw [hdb] at hm; exact absurd hm (by simp)
        | some j => exact ⟨j, rfl⟩
      simp only [saveCardsLoop, hm, if_pos, hi, Option.getD_some]
      have hids1 : (table.map
            (fun r => if r.id = i then applyCardUpdate r c else r)).map (fun r => r.id)
          = table.map (fun r => r.id) := by
        rw [List.map_map]
        refine map_congr_mem _ _ _ (fun r _ => ?_)
        by_cases hri : r.id = i <;> simp [hri, applyCardUpdate_id]
      have hb1 : ∀ j ∈ preIds,
          j ≤ ((table.map
            (fun r => if r.id = i then applyCardUpdate r c else r)).map
              (fun r => r.id)).foldl max 0 := by
        rw [hids1]; exact hb
      rw [ih _ hb1, hids1]
      rw [Prod.mk.injEq]
      refine ⟨?_, ?_⟩
      · dsimp only
        have hleft : (table.map
              (fun r => if r.id = i then applyCardUpdate r c else r)).map
                (rowAfterUpdates preIds cs)
            = table.map (rowAfterUpdates preIds (c :: cs)) := by
          rw [List.map_map]
          exact map_congr_mem _ _ _
            (fun r _ => rowAfterUpdates_matched_step preIds c cs i hm hi r)
        rw [hleft]
        rw [show insertRowsSpec preIds ((table.map (fun r => r.id)).foldl max 0) (c :: cs)
            = insertRowsSpec preIds ((table.map (fun r => r.id)).foldl max 0) cs from by
          simp only [insertRowsSpec, hm, if_pos]]
      · dsimp only
        rw [show annotateSpec preIds ((table.map (fun r => r.id)).foldl max 0) (c :: cs)
            = c :: annotateSpec preIds ((table.map (fun r => r.id)).foldl max 0) cs
            from by simp only [annotateSpec, hm, if_pos]]
        rw [show ({ c with database_id := some i } : Card) = c from by rw [← hi]]
    · have hmf : cardMatches preIds c = false := Bool.eq_false_iff.mpr hm
      simp only [saveCardsLoop, hmf, Bool.false_eq_true, if_false]
      have hnewid : (insertCardRecord table c).id
          = (table.map (fun r => r.id)).foldl max 0 + 1 := rfl
      have hfold2 :
          ((table ++ [insertCardRecord table c]).map (fun r => r.id)).foldl max 0
          = (table.map (fun r => r.id)).foldl max 0 + 1 := by
        rw [List.map_append, List.foldl_append]
        show max ((table.map (fun r => r.id)).foldl max 0) (insertCardRecord table c).id
          = (table.map (fun r => r.id)).foldl max 0 + 1
        rw [hnewid]
        omega
      have hb2 : ∀ j ∈ preIds,
          j ≤ ((table ++ [insertCardRecord table c]).map (fun r => r.id)).foldl max 0 := by
        intro j hj
        rw [hfold2]
        have := hb j hj
        omega
      rw [ih _ hb2, hfold2]
      rw [Prod.mk.injEq]
      refine ⟨?_, ?_⟩
      · dsimp only
        rw [List.map_append]
        have hnr : rowAfterUpdates preIds cs (insertCardRecord table c)
            = insertCardRecord table c := by
          refine rowAfterUpdates_eq_self preIds cs _ (fun hmem => ?_)
          have h2 := hb _ hmem
          rw [hnewid] at h2
          omega
        rw [show [insertCardRecord table c].map (rowAfterUpdates preIds cs)
            = [insertCardRecord table c] from by rw [List.map_cons, List.map_nil, hnr]]
        rw [map_congr_mem table (rowAfterUpdates preIds cs)
          (rowAfterUpdates preIds (c :: cs))
          (fun r _ => (rowAfterUpdates_unmatched_step preIds c cs hmf r).symm)]
        simp only [insertRowsSpec, hmf, Bool.false_eq_true, if_false]
        rw [List.append_assoc]
        rfl
      · dsimp only
        simp only [annotateSpec, hmf, Bool.false_eq_true, if_false]
        rfl

theorem insertRowsSpec_id_gt (preIds : List Int) :
    ∀ (cards : List Card) (m : Int) (r : CardRecord),
      r ∈ insertRowsSpec preIds m cards → m < r.id := by
  intro cards
  induction cards with
  | nil => intro m r hr; simp [insertRowsSpec] at hr
  | cons c cs ih =>
    intro m r hr
    by_cases hm : cardMatches preIds c
    · simp only [insertRowsSpec, hm, if_pos] at hr
      exact ih m r hr
    · have hmf : cardMatches preIds c = false := Bool.eq_false_iff.mpr hm
      simp only [insertRowsSpec, hmf, Bool.false_eq_true, if_false] at hr
      rcases List.mem_cons.mp hr with h | h
      · subst h
        show m < m + 1
        omega
      · have := ih (m + 1) r h
        omega

theorem insertRowsSpec_ids_nodup (preIds : List Int) :
    ∀ (cards : List Card) (m : Int),
      ((insertRowsSpec preIds m cards).map (fun r => r.id)).Nodup := by
  intro cards
  induction cards with
  | nil => intro m; simp [insertRowsSpec]
  | cons c cs ih =>
    intro m
    by_cases hm : cardMatches preIds c
    · simp only [insertRowsSpec, hm, if_pos]
      exact ih m
    · have hmf : cardMatches preIds c = false := Bool.eq_false_iff.mpr hm
      simp only [insertRowsSpec, hmf, Bool.false_eq_true, if_false, List.map_cons,
        List.nodup_cons]
      refine ⟨fun hmem => ?_, ih (m + 1)⟩
      obtain ⟨r, hr, hrid⟩ := List.mem_map.mp hmem
      have hgt := insertRowsSpec_id_gt preIds cs (m + 1) r hr
      have hrid2 : r.id = m + 1 := hrid
      omega

/-- What a successful `asave_cards` call does, in closed form: each
pre-existing row ends at the left-to-right fold of the matched cards
carrying its id, the unmatched cards append freshly-identified rows in
input order, and the returned cards are the inputs annotated per
branch. -/
theorem asave_cards_ok_spec (table : List CardRecord) (cards : List Card)
    (t2 : List CardRecord) (outs : List Card)
    (h : asave_cards table cards false = .ok (t2, outs)) :
    t2 = table.map (rowAfterUpdates (table.map (fun r => r.id)) cards)
         ++ insertRowsSpec (table.map (fun r => r.id))
              ((table.map (fun r => r.id)).foldl max 0) cards
    ∧ outs = annotateSpec (table.map (fun r => r.id))
              ((table.map (fun r => r.id)).foldl max 0) cards := by
  simp only [asave_cards, if_false, Bool.false_eq_true] at h
  split at h
  · exact absurd h (by simp)
  · have hpair := Except.ok.inj h
    have hb : ∀ i ∈ table.map (fun r => r.id),
        i ≤ (table.map (fun r => r.id)).foldl max 0 :=
      fun i hi => le_foldl_max _ 0 i hi
    have hspec := saveCardsLoop_spec (table.map (fun r => r.id)) cards table hb
    have hps := hpair.symm.trans hspec
    exact ⟨congrArg Prod.fst hps, congrArg Prod.snd hps⟩

/-- C6 (amended): for every batch, `asave_cards` leaves each matched row
at the fold of its matching cards' updates — every field set to the
card's value except fields carrying a `Card` default (evaluation
`"not_evaluated"`, context `""`, topic `""`), which keep the stored
values —, appends one freshly-identified row per unmatched card (fresh
ids are successive and collide with nothing, preserving row-id
uniqueness; the insert requires non-default context and topic, which
the schema's NOT NULL columns otherwise reject), and returns the input
cards in order, each annotated with its assigned id. -/
theorem save_cards_semantics :
    (∀ (table : List CardRecord) (cards : List Card)
        (t2 : List CardRecord) (outs : List Card),
        asave_cards table cards false = .ok (t2, outs) →
        t2 = table.map (rowAfterUpdates (table.map (fun r => r.id)) cards)
             ++ insertRowsSpec (table.map (fun r => r.id))
                  ((table.map (fun r => r.id)).foldl max 0) cards
        ∧ outs = annotateSpec (table.map (fun r => r.id))
                  ((table.map (fun r => r.id)).foldl max 0) cards)
  ∧ (∀ (table : List CardRecord) (cards : List Card)
        (t2 : List CardRecord) (outs : List Card),
        (table.map (fun r => r.id)).Nodup →
        asave_cards table cards false = .ok (t2, outs) →
        (t2.map (fun r => r.id)).Nodup)
  ∧ (∀ (table : List CardRecord) (cards : List Card)
        (t2 : List CardRecord) (outs : List Card),
        asave_cards table cards false = .ok (t2, outs) →
        outs.map (fun c => { c with database_id := none })
          = cards.map (fun c => { c with database_id := none })
        ∧ ∀ c ∈ outs, c.database_id.isSome) := by
  refine ⟨asave_cards_ok_spec, ?_, ?_⟩
  · intro table cards t2 outs ht h
    obtain ⟨ht2, -⟩ := asave_cards_ok_spec table cards t2 outs h
    subst ht2
    rw [List.map_append]
    have h1 : (table.map (rowAfterUpdates (table.map (fun r => r.id)) cards)).map
        (fun r => r.id) = table.map (fun r => r.id) := by
      rw [List.map_map]
      exact map_congr_mem _ _ _ (fun r _ => rowAfterUpdates_id _ cards r)
    rw [h1]
    refine ht.append (insertRowsSpec_ids_nodup _ cards _) ?_
    intro a ha hmem
    obtain ⟨r, hr, hrid⟩ := List.mem_map.mp hmem
    have hgt := insertRowsSpec_id_gt _ cards _ r hr
    have hle := le_foldl_max (table.map (fun r => r.id)) 0 a ha
    have hrid2 : r.id = a := hrid
    omega
  · intro table cards t2 outs h
    simp only [asave_cards, if_false, Bool.false_eq_true] at h
    split at h
    · exact absurd h (by simp)
    · have hpair := Except.ok.inj h
      have houts : outs = (saveCardsLoop (table.map fun r => r.id) table cards).2 :=
        congrArg Prod.snd hpair.symm
      rw [houts]
      exact saveCardsLoop_outs _ cards table

def cardNoId2 : Card :=
  { question := "Q3", answer := "A3", topic := "T3", context := "doc1",
    evaluation := "seen", database_id := none }

theorem save_cards_semantics_witness :
    ([{ id := 1, question := "Q1", answer := "A1", evaluation := "seen",
        context := "doc1", topic := "T1" },
      { id := 2, question := "Q2", answer := "A2", evaluation := "seen",
        context := "doc1", topic := "T2" },
      { id := 3, question := "Q3", answer := "A3", evaluation := "seen",
        context := "doc1", topic := "T3" }] : List CardRecord)
      = [rowLiked].map (rowAfterUpdates [1] [cardOne, cardNoId, cardNoId2])
        ++ insertRowsSpec [1] 1 [cardOne, cardNoId, cardNoId2]
  ∧ ([{ cardOne with database_id := some 1 },
      { cardNoId with database_id := some 2 },
      { cardNoId2 with database_id := some 3 }] : List Card)
      = annotateSpec [1] 1 [cardOne, cardNoId, cardNoId2]
  ∧ (([{ id := 1, question := "Q1", answer := "A1", evaluation := "seen",
         context := "doc1", topic := "T1" },
       { id := 2, question := "Q2", answer := "A2", evaluation := "seen",
         context := "doc1", topic := "T2" },
       { id := 3, question := "Q3", answer := "A3", evaluation := "seen",
         context := "doc1", topic := "T3" }] : List CardRecord).map
        (fun r => r.id)).Nodup
  ∧ ([{ cardOne with database_id := some 1 },
      { cardNoId with database_id := some 2 },
      { cardNoId2 with database_id := some 3 }].map
        (fun c => { c with database_id := none })
      = [cardOne, cardNoId, cardNoId2].map (fun c => { c with database_id := none })
     ∧ ∀ c ∈ [{ cardOne with database_id := some 1 },
              { cardNoId with database_id := some 2 },
              { cardNoId2 with database_id := some 3 }], c.database_id.isSome) :=
  ⟨(save_cards_semantics.1 [rowLiked] [cardOne, cardNoId, cardNoId2] _ _ rfl).1,
   (save_cards_semantics.1 [rowLiked] [cardOne, cardNoId, cardNoId2] _ _ rfl).2,
   save_cards_semantics.2.1 [rowLiked] [cardOne, cardNoId, cardNoId2] _ _
     (by decide) rfl,
   save_cards_semantics.2.2 [rowLiked] [cardOne, cardNoId, cardNoId2] _ _ rfl⟩

/-! ## Upsert invariant and idempotence (C3), round-trip (C8) -/

/-- A feedback table holds at most one row per `database_id` — the
invariant the unique index on the column enforces. -/
def feedbackIdsNodup (table : List FeedbackRecord) : Prop :=
  (table.map (fun r => r.database_id)).Nodup

/-- The table state after one `asave_anki_feedback` call: the new state
on success, the old state on a raised exception (the transaction rolls
back). -/
def applyUpsert (fbs : List AnkiNoteFeedback) (table : List FeedbackRecord) :
    List FeedbackRecord :=
  match asave_anki_feedback table fbs false false with
  | .ok t2 => t2
  | .error _ => table

/-- The table state after a sequence of `asave_anki_feedback` calls. -/
def upsertRuns (calls : List (List AnkiNoteFeedback)) (table : List FeedbackRecord) :
    List FeedbackRecord :=
  calls.foldl (fun t call => applyUpsert call t) table

theorem lastWrite_did (fbs : List AnkiNoteFeedback) (did : Int) (fb : AnkiNoteFeedback)
    (h : lastWrite fbs did = some fb) : fb.database_id = did := by
  induction fbs with
  | nil => simp [lastWrite] at h
  | cons x xs ih =>
    cases hx : lastWrite xs did with
    | some fb2 =>
      rw [lastWrite, hx] at h
      have he := Option.some.inj h
      subst he
      exact ih hx
    | none =>
      rw [lastWrite, hx] at h
      split_ifs at h with hcond
      have he := Option.some.inj h
      subst he
      exact hcond

theorem lastWrite_none_of_not_mem (fbs : List AnkiNoteFeedback) (i : Int)
    (h : i ∉ fbs.map (fun fb => fb.database_id)) : lastWrite fbs i = none := by
  induction fbs with
  | nil => rfl
  | cons x xs ih =>
    simp only [List.map_cons, List.mem_cons, not_or] at h
    rw [lastWrite, ih h.2, if_neg (fun he => h.1 he.symm)]

theorem lastWrite_isSome_of_mem (fbs : List AnkiNoteFeedback) (i : Int)
    (h : i ∈ fbs.map (fun fb => fb.database_id)) :
    ∃ fb, lastWrite fbs i = some fb := by
  induction fbs with
  | nil => simp at h
  | cons x xs ih =>
    rw [lastWrite]
    by_cases hx : i ∈ xs.map (fun fb => fb.database_id)
    · obtain ⟨fb, hfb⟩ := ih hx
      rw [hfb]
      exact ⟨fb, rfl⟩
    · rw [lastWrite_none_of_not_mem xs i hx]
      simp only [List.map_cons, List.mem_cons] at h
      rcases h with h | h
      · exact ⟨x, by rw [if_pos h.symm]⟩
      · exact absurd h hx

theorem lastWrite_self_of_nodup (fbs : List AnkiNoteFeedback)
    (hf : (fbs.map (fun fb => fb.database_id)).Nodup)
    (fb : AnkiNoteFeedback) (hfb : fb ∈ fbs) :
    lastWrite fbs fb.database_id = some fb := by
  induction fbs with
  | nil => simp at hfb
  | cons x xs ih =>
    rw [List.map_cons, List.nodup_cons] at hf
    rcases List.mem_cons.mp hfb with h | h
    · subst h
      rw [lastWrite, lastWrite_none_of_not_mem xs _ hf.1, if_pos rfl]
    · rw [lastWrite, ih hf.2 h]

theorem updFeedbackRow_did (fbs : List AnkiNoteFeedback) (row : FeedbackRecord) :
    (updFeedbackRow fbs row).database_id = row.database_id := by
  unfold updFeedbackRow
  cases lastWrite fbs row.database_id <;> rfl

theorem updFeedbackRow_pk (fbs : List AnkiNoteFeedback) (row : FeedbackRecord) :
    (updFeedbackRow fbs row).id = row.id := by
  unfold updFeedbackRow
  cases lastWrite fbs row.database_id <;> rfl

theorem map_upd_ids (fbs : List AnkiNoteFeedback) (table : List FeedbackRecord) :
    (table.map (updFeedbackRow fbs)).map (fun r => r.database_id)
      = table.map (fun r => r.database_id) := by
  rw [List.map_map]
  exact map_congr_mem _ _ _ (fun r _ => updFeedbackRow_did fbs r)

theorem freshFeedbackId_map_upd (fbs : List AnkiNoteFeedback)
    (table : List FeedbackRecord) :
    freshFeedbackId (table.map (updFeedbackRow fbs)) = freshFeedbackId table := by
  unfold freshFeedbackId
  have h : (table.map (updFeedbackRow fbs)).map (fun r => r.id)
      = table.map (fun r => r.id) := by
    rw [List.map_map]
    exact map_congr_mem _ _ _ (fun r _ => updFeedbackRow_pk fbs r)
  rw [h]

theorem insertFeedbackRows_ids (ins : List AnkiNoteFeedback) :
    ∀ table : List FeedbackRecord,
      (insertFeedbackRows table ins).map (fun r => r.database_id)
        = table.map (fun r => r.database_id) ++ ins.map (fun fb => fb.database_id) := by
  induction ins with
  | nil => intro table; simp [insertFeedbackRows]
  | cons fb rest ih =>
    intro table
    rw [insertFeedbackRows, ih, List.map_append]
    simp [feedbackToRow]

theorem upsertRows_ok_inv (table : List FeedbackRecord) (fbs : List AnkiNoteFeedback)
    (t2 : List FeedbackRecord) (h : upsertRows table fbs = .ok t2) :
    t2 = insertFeedbackRows (table.map (updFeedbackRow fbs))
           (fbs.filter
             (fun fb => !((table.map (fun r => r.database_id)).contains fb.database_id)))
    ∧ ((fbs.filter
         (fun fb => !((table.map (fun r => r.database_id)).contains fb.database_id))).map
           (fun fb => fb.database_id)).Nodup := by
  unfold upsertRows at h
  split_ifs at h with hnod
  · exact ⟨(Except.ok.inj h).symm, hnod⟩

theorem applyUpsert_nodup (fbs : List AnkiNoteFeedback) (table : List FeedbackRecord)
    (ht : feedbackIdsNodup table) : feedbackIdsNodup (applyUpsert fbs table) := by
  unfold applyUpsert
  cases hs : asave_anki_feedback table fbs false false with
  | error e => exact ht
  | ok t2 =>
    by_cases he : fbs.isEmpty
    · rw [asave_anki_feedback, if_pos he] at hs
      rw [← Except.ok.inj hs]
      exact ht
    · rw [asave_anki_feedback, if_neg he] at hs
      simp only [Bool.false_eq_true, if_false] at hs
      obtain ⟨ht2, hnod⟩ := upsertRows_ok_inv table fbs t2 hs
      subst ht2
      unfold feedbackIdsNodup
      rw [insertFeedbackRows_ids, map_upd_ids]
      refine ht.append hnod ?_
      intro a ha hmem
      obtain ⟨fb, hfb, hfbid⟩ := List.mem_map.mp hmem
      have hfil := (List.mem_filter.mp hfb).2
      rw [Bool.not_eq_true'] at hfil
      exact (contains_eq_false_iff _ _).mp (hfbid ▸ hfil) ha

theorem filter_map_upd (fbs : List AnkiNoteFeedback) (p : Int → Bool)
    (t : List FeedbackRecord) :
    (t.map (updFeedbackRow fbs)).filter (fun r => p r.database_id)
      = (t.filter (fun r => p r.database_id)).map (updFeedbackRow fbs) := by
  induction t with
  | nil => rfl
  | cons r rs ih =>
    simp only [List.map_cons, List.filter_cons, updFeedbackRow_did]
    by_cases hp : p r.database_id
    · simp [hp, ih]
    · simp [hp, ih]

theorem nodup_filter_unique (t : List FeedbackRecord) (ht : feedbackIdsNodup t)
    (i : Int) (r : FeedbackRecord) (hr : r ∈ t) (hid : r.database_id = i) :
    t.filter (fun x => x.database_id == i) = [r] := by
  induction t with
  | nil => simp at hr
  | cons x xs ih =>
    rw [feedbackIdsNodup, List.map_cons, List.nodup_cons] at ht
    rcases List.mem_cons.mp hr with h | h
    · subst h
      rw [List.filter_cons, if_pos (by simp [hid])]
      have hnil : xs.filter (fun x => x.database_id == i) = [] := by
        rw [List.filter_eq_nil_iff]
        intro y hy hyp
        rw [beq_iff_eq] at hyp
        exact ht.1 (hid ▸ hyp ▸ List.mem_map_of_mem _ hy)
      rw [hnil]
    · have hx : x.database_id ≠ i := by
        intro he
        refine ht.1 ?_
        rw [he, ← hid]
        exact List.mem_map_of_mem _ h
      rw [List.filter_cons, if_neg (by simp [hx])]
      exact ih ht.2 h

theorem filter_none_of_not_mem (t : List FeedbackRecord) (i : Int)
    (hi : i ∉ t.map (fun r => r.database_id)) :
    t.filter (fun x => x.database_id == i) = [] := by
  rw [List.filter_eq_nil_iff]
  intro y hy hyp
  rw [beq_iff_eq] at hyp
  exact hi (hyp ▸ List.mem_map_of_mem _ hy)

theorem applyUpsert_single (t : List FeedbackRecord) (f : AnkiNoteFeedback) :
    applyUpsert [f] t =
      t.map (updFeedbackRow [f])
      ++ (if (t.map (fun r => r.database_id)).contains f.database_id
          then [] else [feedbackToRow (freshFeedbackId t) f]) := by
  unfold applyUpsert
  rw [asave_anki_feedback, if_neg (by simp : ¬([f].isEmpty = true))]
  simp only [Bool.false_eq_true, if_false]
  rw [upsertRows]
  by_cases hc : (t.map (fun r => r.database_id)).contains f.database_id
  · have hins : [f].filter
        (fun fb => !((t.map (fun r => r.database_id)).contains fb.database_id)) = [] := by
      simp only [List.filter_cons, List.filter_nil, hc, Bool.not_true,
        Bool.false_eq_true, if_false]
    rw [hins, if_pos (by simp), if_pos hc]
    exact (List.append_nil _).symm
  · have hins : [f].filter
        (fun fb => !((t.map (fun r => r.database_id)).contains fb.database_id)) = [f] := by
      simp only [List.filter_cons, List.filter_nil, Bool.not_eq_true',
        Bool.eq_false_iff, Ne, hc, not_false_iff, if_true]
    rw [hins, if_pos (by simp), if_neg hc]
    show t.map (updFeedbackRow [f])
        ++ [feedbackToRow (freshFeedbackId (t.map (updFeedbackRow [f]))) f]
      = t.map (updFeedbackRow [f]) ++ [feedbackToRow (freshFeedbackId t) f]
    rw [freshFeedbackId_map_upd]

theorem rowData_setFeedbackFields (r : FeedbackRecord) (fb : AnkiNoteFeedback)
    (h : r.database_id = fb.database_id) :
    rowData (setFeedbackFields r fb) = fb := by
  show ({ database_id := r.database_id, anki_note_id := fb.anki_note_id,
          deck_name := fb.deck_name, model_name := fb.model_name,
          question := fb.question, answer := fb.answer, topic := fb.topic,
          suspended := fb.suspended, flag := fb.flag } : AnkiNoteFeedback) = fb
  rw [h]

/-- C3: starting from a table with at most one feedback row per
`database_id`, any sequence of `asave_anki_feedback` calls preserves
that invariant (a raised call leaves the rolled-back state unchanged);
and upserting a record for the same `database_id` twice leaves exactly
one row for that id, whose data columns hold the second call's field
values. -/
theorem upsert_feedback_unique_idempotent :
    (∀ (calls : List (List AnkiNoteFeedback)) (table : List FeedbackRecord),
        feedbackIdsNodup table → feedbackIdsNodup (upsertRuns calls table))
  ∧ (∀ (table : List FeedbackRecord) (f g : AnkiNoteFeedback),
        feedbackIdsNodup table → g.database_id = f.database_id →
        ((upsertRuns [[f], [g]] table).filter
            (fun r => r.database_id == f.database_id)).map rowData
          = [g]) := by
  constructor
  · intro calls
    induction calls with
    | nil => intro table ht; exact ht
    | cons call rest ih =>
      intro table ht
      exact ih (applyUpsert call table) (applyUpsert_nodup call table ht)
  · intro table f g ht hid
    have hrun : upsertRuns [[f], [g]] table = applyUpsert [g] (applyUpsert [f] table) := rfl
    rw [hrun]
    by_cases hc : (table.map (fun r => r.database_id)).contains f.database_id
    · -- the first upsert updates the existing row, the second updates it again
      have hmem : f.database_id ∈ table.map (fun r => r.database_id) :=
        (contains_eq_true_iff _ _).mp hc
      have h1 : applyUpsert [f] table = table.map (updFeedbackRow [f]) := by
        rw [applyUpsert_single, if_pos hc, List.append_nil]
      have hc2 : ((applyUpsert [f] table).map (fun r => r.database_id)).contains
          g.database_id = true := by
        rw [h1, map_upd_ids, hid]
        exact hc
      have h2 : applyUpsert [g] (applyUpsert [f] table)
          = (table.map (updFeedbackRow [f])).map (updFeedbackRow [g]) := by
        rw [applyUpsert_single, hc2, if_pos rfl, List.append_nil, h1]
      rw [h2, filter_map_upd [g] (fun i => i == f.database_id),
        filter_map_upd [f] (fun i => i == f.database_id)]
      obtain ⟨r0, hr0, hr0id⟩ := List.mem_map.mp hmem
      rw [nodup_filter_unique table ht f.database_id r0 hr0 hr0id]
      have hu1 : updFeedbackRow [f] r0 = setFeedbackFields r0 f := by
        unfold updFeedbackRow
        rw [show lastWrite [f] r0.database_id = some f from by
          rw [hr0id]; simp [lastWrite]]
      have hdid1 : (setFeedbackFields r0 f).database_id = g.database_id := by
        show r0.database_id = g.database_id
        rw [hr0id]
        exact hid.symm
      have hu2 : updFeedbackRow [g] (setFeedbackFields r0 f)
          = setFeedbackFields (setFeedbackFields r0 f) g := by
        unfold updFeedbackRow
        rw [show lastWrite [g] (setFeedbackFields r0 f).database_id = some g from by
          rw [hdid1]; simp [lastWrite]]
      rw [List.map_cons, List.map_nil, hu1, List.map_cons, List.map_nil, hu2,
        List.map_cons, List.map_nil,
        rowData_setFeedbackFields (setFeedbackFields r0 f) g hdid1]
    · -- the first upsert inserts a new row, the second updates it
      have hnmem : f.database_id ∉ table.map (fun r => r.database_id) :=
        (contains_eq_false_iff _ _).mp (Bool.not_eq_true _ ▸ Bool.of_not_eq_true hc)
      have hupdid : table.map (updFeedbackRow [f]) = table := by
        refine map_id_of_forall _ _ (fun r hr => ?_)
        unfold updFeedbackRow
        have hne : ¬ (f.database_id = r.database_id) := fun he =>
          hnmem (he ▸ List.mem_map_of_mem (fun r => r.database_id) hr)
        rw [show lastWrite [f] r.database_id = none from by simp [lastWrite, hne]]
      have h1 : applyUpsert [f] table
          = table ++ [feedbackToRow (freshFeedbackId table) f] := by
        rw [applyUpsert_single, if_neg hc, hupdid]
      have hc2 : ((applyUpsert [f] table).map (fun r => r.database_id)).contains
          g.database_id = true := by
        rw [h1, hid, contains_eq_true_iff, List.map_append]
        exact List.mem_append_right _ (by simp [feedbackToRow])
      have h2 : applyUpsert [g] (applyUpsert [f] table)
          = (table ++ [feedbackToRow (freshFeedbackId table) f]).map
              (updFeedbackRow [g]) := by
        rw [applyUpsert_single, hc2, if_pos rfl, List.append_nil, h1]
      rw [h2, filter_map_upd [g] (fun i => i == f.database_id), List.filter_append,
        filter_none_of_not_mem table f.database_id hnmem]
      have hpass : List.filter (fun x => x.database_id == f.database_id)
          [feedbackToRow (freshFeedbackId table) f]
          = [feedbackToRow (freshFeedbackId table) f] := by
        simp [feedbackToRow]
      rw [hpass]
      have hu2 : updFeedbackRow [g] (feedbackToRow (freshFeedbackId table) f)
          = setFeedbackFields (feedbackToRow (freshFeedbackId table) f) g := by
        unfold updFeedbackRow
        rw [show lastWrite [g] (feedbackToRow (freshFeedbackId table) f).database_id
            = some g from by
          show lastWrite [g] f.database_id = some g
          rw [← hid]; simp [lastWrite]]
      rw [List.nil_append, List.map_cons, List.map_nil, hu2, List.map_cons, List.map_nil,
        rowData_setFeedbackFields (feedbackToRow (freshFeedbackId table) f) g
          (by show f.database_id = g.database_id; exact hid.symm)]

theorem upsert_feedback_unique_idempotent_witness :
    feedbackIdsNodup (upsertRuns [[fbOne]] [])
  ∧ ((upsertRuns [[fbOne], [fbOneB]] []).filter
      (fun r => r.database_id == fbOne.database_id)).map rowData = [fbOneB] :=
  ⟨upsert_feedback_unique_idempotent.1 [[fbOne]] [] (by simp [feedbackIdsNodup]),
   upsert_feedback_unique_idempotent.2 [] fbOne fbOneB (by simp [feedbackIdsNodup]) rfl⟩

/-- C8: the round-trip fails on the code.
`AnkiNoteFeedback.model_validate` populates `database_id` through its
validation alias `id`, i.e. from the feedback row's surrogate primary
key column.  Saving feedback for local ids 1 and 3 into an empty table
stores them under surrogate keys 1 and 2; loading by the same id set
`[1, 3]` returns records carrying database ids 1 and 2 — not field-equal
to what was saved (no loaded record carries id 3), against the claim and
the spec's own scenario.  The repository's tests miss this because they
always save ids 1..n into a fresh table, where the surrogate key and the
stored id coincide. -/
theorem feedback_roundtrip_alias_bug :
    asave_anki_feedback [] [fbOne, fbThree] false false
      = .ok [feedbackToRow 1 fbOne, feedbackToRow 2 fbThree]
  ∧ aload_anki_feedback [feedbackToRow 1 fbOne, feedbackToRow 2 fbThree] [1, 3] false false
      = .ok [fbOne, { fbThree with database_id := 2 }]
  ∧ [fbOne, { fbThree with database_id := 2 }].map (fun fb => fb.database_id) = [1, 2]
  ∧ [fbOne, fbThree].map (fun fb => fb.database_id) = [1, 3]
  ∧ ¬ ∃ fb ∈ [fbOne, { fbThree with database_id := 2 }], fb.database_id = 3 :=
  ⟨rfl, rfl, rfl, rfl, by decide⟩

end Neurodeck
